import Mathlib

/-!
Verification of the rocBLAS SCAL example
(`Libraries/rocBLAS/level_1/scal/main.cpp`).

The program parses an increment `incx`, an element count `n` and a scalar
`h_alpha`, builds the host vector `h_x = [0, 1, 2, ...]` of size `n * incx`,
computes a CPU reference result `h_x_gold` by scaling every element at index
`i * incx` (for `i < n`) by `h_alpha`, runs `rocblas_sscal` on the device,
and counts positions where the device result differs from the reference by
more than `10 * FLT_EPSILON`.

Single-precision floats are modelled as exact rationals: every value the
program manipulates in the properties below (integers `0 .. n * incx` and
their products with the scalar) is exactly representable in `float`, and the
comparison logic is independent of rounding.  The device call
`rocblas_sscal` is external to the repository and is modelled as an opaque
function parameter.
-/

/-- The host input vector: `std::vector<float> h_x(size_x)` followed by
`std::iota(h_x.begin(), h_x.end(), 0.f)` (main.cpp lines 70-73), i.e. the
increasing sequence `0, 1, 2, ...` of length `size_x`. -/
def iotaVec (m : ℕ) : List ℚ := (List.range m).map (fun i => (i : ℚ))

/-- The CPU reference SCAL loop (main.cpp lines 82-85):
`for(int i = 0; i < n; i++) h_x_gold[i * incx] = h_alpha * h_x[i * incx];`
where `h_x_gold` starts as a copy of `x` (line 79) and the right-hand side
reads the unmodified `h_x`. -/
def scalReference (n incx : ℕ) (alpha : ℚ) (x : List ℚ) : List ℚ :=
  (List.range n).foldl (fun gold i => gold.set (i * incx) (alpha * x.getD (i * incx) 0)) x

/-- The comparison tolerance (main.cpp line 113):
`constexpr float eps = 10.f * std::numeric_limits<float>::epsilon();`
with `FLT_EPSILON = 2^-23`. -/
def eps : ℚ := 10 / 2 ^ 23

/-- The validation loop (main.cpp lines 114-118):
`for(size_t i = 0; i < size_x; i++) errors += std::fabs(h_x[i] - h_x_gold[i]) > eps;`
starting from `errors = 0`. -/
def validationErrors (size_x : ℕ) (h_x h_x_gold : List ℚ) : ℕ :=
  (List.range size_x).foldl
    (fun errors i => errors + if eps < |h_x.getD i 0 - h_x_gold.getD i 0| then 1 else 0) 0

/-- Modelled from the spec: `report_validation_result` is declared in
`example_utils.hpp`, which is not part of this source tree.  The spec states
"Exit code 0 on success or on a reported validation mismatch count used as
the exit code (nonzero indicates mismatches)", so the function returns the
mismatch count as the process exit code. -/
def report_validation_result (errors : ℕ) : ℕ := errors

/-- The external accelerator SCAL primitive, an opaque collaborator taking
`(n, alpha, x, incx)` as `rocblas_sscal` does (main.cpp line 102). -/
def DeviceScal : Type := ℤ → ℚ → List ℚ → ℤ → List ℚ

/-- How a run of `main` ends: an early return after a rejected parameter
(main.cpp lines 49-61) or a completed run returning the validation result
(line 119).  Each constructor carries the process exit code. -/
inductive MainOutcome : Type
  | invalidParam (exitCode : ℕ) : MainOutcome
  | completed (exitCode : ℕ) : MainOutcome

/-- The process exit code of a run. -/
def MainOutcome.exit : MainOutcome → ℕ
  | MainOutcome.invalidParam c => c
  | MainOutcome.completed c => c

/-- The mismatch count of a completed run: the validation loop applied to
the device output and the CPU reference result, both built over the input
vector `iotaVec (n * incx)`. -/
def runMismatchCount (device : DeviceScal) (incx n : ℤ) (h_alpha : ℚ) : ℕ :=
  validationErrors (n * incx).toNat
    (device n h_alpha (iotaVec (n * incx).toNat) incx)
    (scalReference n.toNat incx.toNat h_alpha (iotaVec (n * incx).toNat))

/-- Control flow of `main` (main.cpp lines 38-120): reject `incx <= 0`, then
reject `n <= 0`, each with `return 0`; otherwise build the vectors, run the
reference loop and the device call, and return the reported mismatch
count. -/
def mainScal (device : DeviceScal) (incx n : ℤ) (h_alpha : ℚ) : MainOutcome :=
  if incx ≤ 0 then MainOutcome.invalidParam 0
  else if n ≤ 0 then MainOutcome.invalidParam 0
  else MainOutcome.completed (report_validation_result (runMismatchCount device incx n h_alpha))

/-- A device that fulfils the SCAL contract exactly, i.e. computes the same
function as the CPU reference loop. -/
def perfectDevice : DeviceScal :=
  fun n alpha x incx => scalReference n.toNat incx.toNat alpha x

/-- Specification-side description of the equality check: the number of
positions `i < size_x` whose absolute difference exceeds the tolerance. -/
def spec_mismatchCount (size_x : ℕ) (a b : List ℚ) : ℕ :=
  ((List.range size_x).filter (fun i => decide (eps < |a.getD i 0 - b.getD i 0|))).length

-- Unfolding lemmas for the reference loop.

lemma scalReference_succ (n incx : ℕ) (alpha : ℚ) (x : List ℚ) :
    scalReference (n + 1) incx alpha x =
      (scalReference n incx alpha x).set (n * incx) (alpha * x.getD (n * incx) 0) := by
  simp [scalReference, List.range_succ]

lemma scalReference_length (n incx : ℕ) (alpha : ℚ) (x : List ℚ) :
    (scalReference n incx alpha x).length = x.length := by
  induction n with
  | zero => rfl
  | succ n ih => rw [scalReference_succ, List.length_set, ih]

lemma scalReference_getD_hit (n incx : ℕ) (alpha : ℚ) (x : List ℚ) (i : ℕ)
    (hi : i < n) (hidx : i * incx < x.length) :
    (scalReference n incx alpha x).getD (i * incx) 0 = alpha * x.getD (i * incx) 0 := by
  induction n with
  | zero => exact absurd hi (Nat.not_lt_zero i)
  | succ n ih =>
    rw [scalReference_succ]
    by_cases hcase : i * incx = n * incx
    · rw [hcase] at hidx ⊢
      rw [List.getD_eq_getElem?_getD,
        List.getElem?_set_self (by rw [scalReference_length]; exact hidx),
        Option.getD_some]
    · have hlt : i < n := by
        rcases Nat.lt_succ_iff_lt_or_eq.mp hi with h | h
        · exact h
        · exact absurd (by rw [h]) hcase
      rw [List.getD_eq_getElem?_getD,
        List.getElem?_set_ne (fun h => hcase h.symm),
        ← List.getD_eq_getElem?_getD]
      exact ih hlt

lemma scalReference_getD_miss (n incx : ℕ) (alpha : ℚ) (x : List ℚ) (j : ℕ)
    (hj : ∀ i, i < n → j ≠ i * incx) :
    (scalReference n incx alpha x).getD j 0 = x.getD j 0 := by
  induction n with
  | zero => rfl
  | succ n ih =>
    rw [scalReference_succ, List.getD_eq_getElem?_getD,
      List.getElem?_set_ne (fun h => hj n (Nat.lt_succ_self n) h.symm),
      ← List.getD_eq_getElem?_getD]
    exact ih (fun i hi => hj i (Nat.lt_succ_of_lt hi))

-- The accumulating validation loop counts the filtered positions.

lemma foldl_count_acc (p : ℕ → Prop) [DecidablePred p] (l : List ℕ) (acc : ℕ) :
    l.foldl (fun e i => e + if p i then 1 else 0) acc
      = acc + (l.filter (fun i => decide (p i))).length := by
  induction l generalizing acc with
  | nil => simp
  | cons a l ih =>
    rw [List.foldl_cons, ih, List.filter_cons]
    by_cases h : p a
    · simp only [h, if_true, decide_eq_true_eq, List.length_cons]
      omega
    · simp [h]

lemma validationErrors_eq_spec (size_x : ℕ) (a b : List ℚ) :
    validationErrors size_x a b = spec_mismatchCount size_x a b := by
  unfold validationErrors spec_mismatchCount
  rw [foldl_count_acc]
  simp

lemma validationErrors_self (size_x : ℕ) (a : List ℚ) :
    validationErrors size_x a a = 0 := by
  rw [validationErrors_eq_spec]
  unfold spec_mismatchCount
  have h : ∀ i ∈ List.range size_x,
      ¬ ((fun i => decide (eps < |a.getD i 0 - a.getD i 0|)) i = true) := by
    intro i _
    simp only [sub_self, abs_zero, decide_eq_true_eq]
    norm_num [eps]
  rw [List.filter_eq_nil_iff.mpr h]
  rfl

-- Control flow of main.

lemma mainScal_invalid (device : DeviceScal) (incx n : ℤ) (h_alpha : ℚ)
    (h : incx ≤ 0 ∨ n ≤ 0) :
    mainScal device incx n h_alpha = MainOutcome.invalidParam 0 := by
  unfold mainScal
  rcases h with h | h
  · rw [if_pos h]
  · by_cases hx : incx ≤ 0
    · rw [if_pos hx]
    · rw [if_neg hx, if_pos h]

lemma mainScal_valid (device : DeviceScal) (incx n : ℤ) (h_alpha : ℚ)
    (hincx : 0 < incx) (hn : 0 < n) :
    mainScal device incx n h_alpha =
      MainOutcome.completed (report_validation_result (runMismatchCount device incx n h_alpha)) := by
  unfold mainScal
  rw [if_neg (not_le.mpr hincx), if_neg (not_le.mpr hn)]

lemma mainScal_perfect_run :
    mainScal perfectDevice 1 5 3 = MainOutcome.completed 0 := by
  rw [mainScal_valid perfectDevice 1 5 3 (by norm_num) (by norm_num)]
  unfold runMismatchCount perfectDevice report_validation_result
  rw [validationErrors_self]

/-- C1: for every `n > 0`, `incx > 0` and scalar `alpha`, the reference
computation over a buffer of length `n * incx` leaves at index `i * incx`,
for every `i < n`, exactly `alpha` times the original value at that
index. -/
theorem scal_scales_stride_elements (n incx : ℕ) (alpha : ℚ) (x : List ℚ)
    (hn : 0 < n) (hincx : 0 < incx) (hx : x.length = n * incx)
    (i : ℕ) (hi : i < n) :
    (scalReference n incx alpha x).getD (i * incx) 0 = alpha * x.getD (i * incx) 0 :=
  scalReference_getD_hit n incx alpha x i hi
    (by rw [hx]; exact Nat.mul_lt_mul_of_pos_right hi hincx)

theorem scal_scales_stride_elements_inst :
    (scalReference 5 1 3 (iotaVec 5)).getD (2 * 1) 0 = 3 * (iotaVec 5).getD (2 * 1) 0 :=
  scal_scales_stride_elements 5 1 3 (iotaVec 5) (by decide) (by decide) rfl 2 (by decide)

/-- C2: for every `n > 0`, `incx > 0` and scalar `alpha`, the reference
computation leaves every element at an index `j` with `j % incx ≠ 0`
exactly equal to its original value. -/
theorem scal_preserves_off_stride (n incx : ℕ) (alpha : ℚ) (x : List ℚ)
    (hn : 0 < n) (hincx : 0 < incx) (j : ℕ) (hj : j % incx ≠ 0) :
    (scalReference n incx alpha x).getD j 0 = x.getD j 0 :=
  scalReference_getD_miss n incx alpha x j
    (fun i _ h => hj (by rw [h, Nat.mul_mod_left]))

theorem scal_preserves_off_stride_inst :
    (scalReference 5 2 3 (iotaVec 10)).getD 3 0 = (iotaVec 10).getD 3 0 :=
  scal_preserves_off_stride 5 2 3 (iotaVec 10) (by decide) (by decide) 3 (by decide)

/-- C3: with a non-positive increment or element count, `main` returns 0
straight away, whatever the accelerator computes: the resulting outcome is
the early `invalidParam` exit and is independent of the device function, so
no buffer is built, no reference loop runs and the accelerator is never
invoked. -/
theorem invalid_param_early_exit (device : DeviceScal) (incx n : ℤ) (h_alpha : ℚ)
    (h : incx ≤ 0 ∨ n ≤ 0) :
    mainScal device incx n h_alpha = MainOutcome.invalidParam 0 :=
  mainScal_invalid device incx n h_alpha h

theorem invalid_param_early_exit_inst :
    mainScal (fun _ _ x _ => x) 0 5 3 = MainOutcome.invalidParam 0 :=
  invalid_param_early_exit (fun _ _ x _ => x) 0 5 3 (Or.inl (by decide))

/-- C4: a completed run returns `report_validation_result` of the mismatch
count, and `report_validation_result` (modelled from the spec) is 0 exactly
when the mismatch count is 0 and otherwise passes the count through as the
exit code. -/
theorem completed_exit_is_mismatch_count (device : DeviceScal) (incx n : ℤ) (h_alpha : ℚ)
    (hincx : 0 < incx) (hn : 0 < n) :
    mainScal device incx n h_alpha =
      MainOutcome.completed (report_validation_result (runMismatchCount device incx n h_alpha)) ∧
    (∀ errors : ℕ, report_validation_result errors = errors) ∧
    (∀ errors : ℕ, report_validation_result errors = 0 ↔ errors = 0) :=
  ⟨mainScal_valid device incx n h_alpha hincx hn, fun _ => rfl, fun _ => Iff.rfl⟩

theorem completed_exit_is_mismatch_count_inst :
    mainScal (fun _ _ x _ => x) 1 5 3 =
      MainOutcome.completed
        (report_validation_result (runMismatchCount (fun _ _ x _ => x) 1 5 3)) :=
  (completed_exit_is_mismatch_count (fun _ _ x _ => x) 1 5 3 (by decide) (by decide)).1

/-- C5: the validation loop counts exactly the positions whose absolute
difference exceeds the fixed tolerance `eps = 10 * 2⁻²³` (ten times the
single-precision machine epsilon), and the reported result is success
(exit code 0) precisely when that count is zero. -/
theorem validation_counts_tolerance_misses (size_x : ℕ) (a b : List ℚ) :
    validationErrors size_x a b = spec_mismatchCount size_x a b ∧
    eps = 10 * (2 : ℚ) ^ (-23 : ℤ) ∧
    (report_validation_result (validationErrors size_x a b) = 0 ↔
      spec_mismatchCount size_x a b = 0) := by
  refine ⟨validationErrors_eq_spec size_x a b, by norm_num [eps], ?_⟩
  unfold report_validation_result
  rw [validationErrors_eq_spec]

/-- C6: with `n = 5`, `incx = 1`, `alpha = 3` the input vector is
`[0, 1, 2, 3, 4]`, the reference result is `[0, 3, 6, 9, 12]`, and
validating it against the correctly scaled sequence gives zero
mismatches. -/
theorem default_run_reference_result :
    iotaVec 5 = [0, 1, 2, 3, 4] ∧
    scalReference 5 1 3 (iotaVec 5) = [0, 3, 6, 9, 12] ∧
    validationErrors 5 [0, 3, 6, 9, 12] (scalReference 5 1 3 (iotaVec 5)) = 0 := by
  refine ⟨by simp [iotaVec, List.range_succ], ?_, ?_⟩
  · norm_num [scalReference, iotaVec, List.range_succ]
  · norm_num [validationErrors, scalReference, iotaVec, List.range_succ, eps, abs]

/-- C7: with `n = 5`, `incx = 2`, `alpha = 3` the input vector of size
`n * incx = 10` is `[0, ..., 9]` and the reference result is
`[0, 1, 6, 3, 12, 5, 18, 7, 24, 9]`: only indices 0, 2, 4, 6, 8 are
modified. -/
theorem stride_two_reference_result :
    iotaVec 10 = [0, 1, 2, 3, 4, 5, 6, 7, 8, 9] ∧
    scalReference 5 2 3 (iotaVec 10) = [0, 1, 6, 3, 12, 5, 18, 7, 24, 9] := by
  constructor
  · simp [iotaVec, List.range_succ]
  · norm_num [scalReference, iotaVec, List.range_succ]

/-- C8: the reference scale operation is not idempotent: at the default
parameters `n = 5`, `incx = 1`, `alpha = 3`, applying it twice differs from
applying it once. -/
theorem scal_not_idempotent :
    scalReference 5 1 3 (scalReference 5 1 3 (iotaVec 5)) ≠ scalReference 5 1 3 (iotaVec 5) := by
  norm_num [scalReference, iotaVec, List.range_succ]

/-- C9: for positive `incx` and a buffer of the allocated size `n * incx`,
every index `i * incx` written by the reference loop (for `i < n`) is
strictly inside the buffer, and the reference computation never changes the
buffer's length. -/
theorem scal_writes_in_bounds (n incx : ℕ) (alpha : ℚ) (x : List ℚ)
    (hincx : 0 < incx) (hx : x.length = n * incx) :
    (∀ i, i < n → i * incx < x.length) ∧
    (scalReference n incx alpha x).length = x.length :=
  ⟨fun i hi => by rw [hx]; exact Nat.mul_lt_mul_of_pos_right hi hincx,
   scalReference_length n incx alpha x⟩

theorem scal_writes_in_bounds_inst :
    (∀ i, i < 5 → i * 2 < (iotaVec 10).length) ∧
    (scalReference 5 2 3 (iotaVec 10)).length = (iotaVec 10).length :=
  scal_writes_in_bounds 5 2 3 (iotaVec 10) (by decide) rfl

/-- C10: a run rejected for a non-positive increment or count exits with
code 0, which is the same exit code a fully successful validation run
produces, so the two cannot be told apart by exit status. -/
theorem invalid_param_exit_code_ambiguous (device : DeviceScal) (incx n : ℤ) (h_alpha : ℚ)
    (h : incx ≤ 0 ∨ n ≤ 0) :
    (mainScal device incx n h_alpha).exit = 0 ∧
    mainScal perfectDevice 1 5 3 = MainOutcome.completed 0 ∧
    (mainScal perfectDevice 1 5 3).exit = (mainScal device incx n h_alpha).exit := by
  rw [mainScal_invalid device incx n h_alpha h, mainScal_perfect_run]
  exact ⟨rfl, rfl, rfl⟩

theorem invalid_param_exit_code_ambiguous_inst :
    (mainScal (fun _ _ x _ => x) (-2) 5 3).exit = 0 ∧
    mainScal perfectDevice 1 5 3 = MainOutcome.completed 0 ∧
    (mainScal perfectDevice 1 5 3).exit = (mainScal (fun _ _ x _ => x) (-2) 5 3).exit :=
  invalid_param_exit_code_ambiguous (fun _ _ x _ => x) (-2) 5 3 (Or.inl (by decide))
